import Mathlib

/-!
Shallow embedding of the Wokwi ST7789 display-driver chip model
(`st7789.chip.c`) and verification of its specification claims.

Machine integers are modelled as `Nat` (all relevant fields are C
`uint8_t`/`uint16_t`/`uint32_t`; byte values read from buffers are reduced
`% 256`, mirroring the `uint8_t` type of the C buffers, and 16-bit
assemblies are therefore `< 65536` automatically).  The signed `int`
coordinate arithmetic of `process_data` is modelled over `Int`: for every
value representable in the C fields (far below `2^31`) the C conversions
are value-preserving, so plain integer arithmetic is exact.
The framebuffer is modelled as a total function from cell index to 32-bit
cell value; `buffer_write` of one pixel becomes a pointwise update.
-/

namespace ST7789

/-- Mirrors `chip_mode_t` (`MODE_COMMAND = 0`, `MODE_DATA = 1`). -/
inductive Mode where
  | command : Mode
  | data : Mode
deriving DecidableEq

/-- Mirrors `chip_state_t`.  Host-interface handles (`pin_t`, `spi_dev_t`,
the SPI scratch buffer) are omitted: they carry no register state.
`command_buf` (C: `uint8_t[16]`) and `framebuffer` are total functions
updated pointwise. -/
structure ChipState where
  width : Nat
  height : Nat
  mode : Mode
  command_code : Nat
  command_size : Nat
  command_index : Nat
  command_buf : Nat → Nat
  ram_write : Bool
  active_column : Nat
  active_page : Nat
  column_start : Nat
  column_end : Nat
  page_start : Nat
  page_end : Nat
  scanning_direction : Nat
  framebuffer : Nat → Nat

/-- Mirrors `chip_reset` (lines 85–100). -/
def chip_reset (chip : ChipState) : ChipState :=
  { chip with
    ram_write := false
    active_column := 0
    active_page := 0
    column_start := 0
    page_start := 0
    column_end := if 0 < chip.width ∧ 0 < chip.height then chip.width - 1 else 127
    page_end := if 0 < chip.width ∧ 0 < chip.height then chip.height - 1 else 127
    scanning_direction := 0 }

/-- Mirrors the register initialisation in `chip_init` (lines 102–138):
`calloc` zeroes the state, the framebuffer is bound with its extent, the
mode defaults to command, then `chip_reset` runs.  The initial framebuffer
contents are host-provided; the model takes them as a parameter. -/
def chip_init_state (w h : Nat) (fb : Nat → Nat) : ChipState :=
  chip_reset
    { width := w, height := h, mode := Mode.command
      command_code := 0, command_size := 0, command_index := 0
      command_buf := fun _ => 0, ram_write := false
      active_column := 0, active_page := 0
      column_start := 0, column_end := 0, page_start := 0, page_end := 0
      scanning_direction := 0, framebuffer := fb }

/-- Mirrors `rgb565_to_rgba` (lines 141–150).  The parameter is a
`uint16_t`, hence the `% 65536`. -/
def rgb565_to_rgba (value : Nat) : Nat :=
  let v := value % 65536
  let r5 := (v >>> 11) &&& 0x1f
  let g6 := (v >>> 5) &&& 0x3f
  let b5 := v &&& 0x1f
  let r8 := (r5 <<< 3) ||| (r5 >>> 2)
  let g8 := (g6 <<< 2) ||| (g6 >>> 4)
  let b8 := (b5 <<< 3) ||| (b5 >>> 2)
  0xff000000 ||| (r8 <<< 16) ||| (g8 <<< 8) ||| b8

/-- Mirrors `command_args_size` (lines 197–218). -/
def command_args_size (c : Nat) : Nat :=
  if c = 0x36 ∨ c = 0xc1 ∨ c = 0xb4 ∨ c = 0xc5 ∨ c = 0x3a then 1
  else if c = 0xc2 ∨ c = 0xc3 ∨ c = 0xc4 ∨ c = 0xb6 then 2
  else if c = 0xb1 ∨ c = 0xb2 ∨ c = 0xc0 then 3
  else if c = 0x2a ∨ c = 0x2b then 4
  else if c = 0xb3 then 6
  else if c = 0xe0 ∨ c = 0xe1 then 16
  else 0

/-- Mirrors `execute_command` (lines 220–286).  Commands marked "not
implemented" in the C and the unknown-command default (a `printf` only)
leave the state unchanged.  `command_buf` reads carry the `uint8_t` bound
as `% 256`; the `& 0xff` of the `CMD_MADCTL` case is that same mask. -/
def execute_command (chip : ChipState) : ChipState :=
  if chip.command_code = 0x2c then
    { chip with ram_write := true }
  else if chip.command_code = 0x36 then
    { chip with scanning_direction := chip.command_buf 0 % 256 }
  else if chip.command_code = 0x2a ∨ chip.command_code = 0x2b then
    if chip.command_size < 4 then chip
    else
      let arg0 := (chip.command_buf 0 % 256) * 256 + chip.command_buf 1 % 256
      let arg2 := (chip.command_buf 2 % 256) * 256 + chip.command_buf 3 % 256
      let set_page := chip.command_code = 0x2b
      if (if chip.scanning_direction.testBit 5 then ¬ set_page else set_page) then
        let chip1 := { chip with active_page := arg0, page_start := arg0, page_end := arg2 }
        if chip.scanning_direction.testBit 7 then
          { chip1 with
            page_start := if 32 ≤ chip1.page_start then chip1.page_start - 32 else chip1.page_start
            page_end := if 32 ≤ chip1.page_end then chip1.page_end - 32 else chip1.page_end
            active_page := if 32 ≤ chip1.active_page then chip1.active_page - 32 else chip1.active_page }
        else chip1
      else
        { chip with active_column := arg0, column_start := arg0, column_end := arg2 }
  else if chip.command_code = 0xc0 ∨ chip.command_code = 0x01 then
    chip_reset chip
  else
    chip

/-- Body of the loop in `process_command` (lines 290–297): one command
byte is latched and, when its arity is zero, executed at once. -/
def process_command_byte (chip : ChipState) (b : Nat) : ChipState :=
  let chip1 := { chip with
    command_code := b % 256
    command_size := command_args_size (b % 256)
    command_index := 0 }
  if chip1.command_size = 0 then execute_command chip1 else chip1

/-- Mirrors `process_command` (lines 288–298): `ram_write` is cleared
before the batch is decoded byte by byte. -/
def process_command (chip : ChipState) (buf : List Nat) : ChipState :=
  buf.foldl process_command_byte { chip with ram_write := false }

/-- Body of the loop in `process_command_args` (lines 301–309): an
argument byte is stored at the current index; when the arity is reached
the command executes and the index is cleared. -/
def process_command_args_byte (chip : ChipState) (b : Nat) : ChipState :=
  if chip.command_index < chip.command_size then
    let chip1 := { chip with
      command_buf := fun j => if j = chip.command_index then b % 256 else chip.command_buf j
      command_index := chip.command_index + 1 }
    if chip1.command_size = chip1.command_index then
      { execute_command chip1 with command_index := 0 }
    else chip1
  else chip

/-- Mirrors `process_command_args` (lines 300–310). -/
def process_command_args (chip : ChipState) (buf : List Nat) : ChipState :=
  buf.foldl process_command_args_byte chip

/-- Transformed X coordinate of one pixel (lines 319–327), over `Int` as
the C code computes it over `int`. -/
def transformX (chip : ChipState) : Int :=
  let x : Int := chip.active_column
  if chip.scanning_direction.testBit 5 then
    if chip.scanning_direction.testBit 6 then (chip.width : Int) - 1 - x else x
  else
    if chip.scanning_direction.testBit 7 then (chip.width : Int) - 1 - x else x

/-- Transformed Y coordinate of one pixel (lines 319–327). -/
def transformY (chip : ChipState) : Int :=
  let y : Int := chip.active_page
  if chip.scanning_direction.testBit 5 then
    if chip.scanning_direction.testBit 7 then (chip.height : Int) - 1 - y else y
  else
    if chip.scanning_direction.testBit 6 then (chip.height : Int) - 1 - y else y

/-- Cursor advancement of one pixel (lines 338–357). -/
def advance (chip : ChipState) : ChipState :=
  if chip.scanning_direction.testBit 5 then
    if chip.page_end < chip.active_page + 1 then
      { chip with
        active_page := chip.page_start
        active_column :=
          if chip.column_end < chip.active_column + 1 then chip.column_start
          else chip.active_column + 1 }
    else { chip with active_page := chip.active_page + 1 }
  else
    if chip.column_end < chip.active_column + 1 then
      { chip with
        active_column := chip.column_start
        active_page :=
          if chip.page_end < chip.active_page + 1 then chip.page_start
          else chip.active_page + 1 }
    else { chip with active_column := chip.active_column + 1 }

/-- One iteration of the pixel loop in `process_data` (lines 316–358) on
an already-assembled 16-bit sample: transform the cursor, write the
decoded colour when the target is inside the framebuffer (skip it
otherwise), then advance the cursor. -/
def sample_step (chip : ChipState) (v : Nat) : ChipState :=
  let x := transformX chip
  let y := transformY chip
  let fb :=
    if x < 0 ∨ (chip.width : Int) ≤ x ∨ y < 0 ∨ (chip.height : Int) ≤ y then
      chip.framebuffer
    else
      fun j => if j = y.toNat * chip.width + x.toNat then rgb565_to_rgba v
               else chip.framebuffer j
  advance { chip with framebuffer := fb }

/-- Mirrors the byte pairing of `process_data` (lines 313–317): samples
are big-endian 16-bit, `val = buf[2i] << 8 | buf[2i+1]`, and a trailing
odd byte is dropped (`pixels = byte_count / 2`). -/
def pixel_step (chip : ChipState) (hi lo : Nat) : ChipState :=
  sample_step chip ((hi % 256) * 256 + lo % 256)

/-- Mirrors `process_data` (lines 312–359): the byte batch is consumed two
bytes at a time; fewer than two remaining bytes end the loop. -/
def process_data (chip : ChipState) : List Nat → ChipState
  | hi :: lo :: rest => process_data (pixel_step chip hi lo) rest
  | _ => chip

/-- Sample list assembled from a byte batch, as `process_data` pairs it. -/
def toSamples : List Nat → List Nat
  | hi :: lo :: rest => ((hi % 256) * 256 + lo % 256) :: toSamples rest
  | _ => []

/-- `process_data` re-expressed over assembled samples. -/
def process_samples (chip : ChipState) : List Nat → ChipState
  | v :: rest => process_samples (sample_step chip v) rest
  | [] => chip

/-- Framebuffer clear loop of the reset branch of `chip_pin_change`
(lines 188–193): cells `0 … n-1` are each overwritten with opaque black,
one full-cell write per pixel. -/
def clear_fb (fb : Nat → Nat) : Nat → Nat → Nat
  | 0 => fb
  | n + 1 => fun j => if j = n then 0xff000000 else clear_fb fb n j

/-- Mirrors the `pin == rst_pin && value == LOW` branch of
`chip_pin_change` (lines 183–194): `spi_stop` is a host call with no
register effect; then `chip_reset` runs and the framebuffer is cleared to
opaque black. -/
def chip_rst_fall (chip : ChipState) : ChipState :=
  let chip1 := chip_reset chip
  { chip1 with framebuffer := clear_fb chip1.framebuffer (chip1.width * chip1.height) }

/-- Batch-level armed-flag characterisation used by the amended claim C2:
folding over one command batch, a RAMWR byte arms, a SWRESET byte disarms
(via `chip_reset`), every other byte leaves the flag alone, starting from
the cleared flag `process_command` begins with. -/
def armed_after (bs : List Nat) : Bool :=
  bs.foldl (fun a b => if b % 256 = 0x2c then true else if b % 256 = 0x01 then false else a)
    false

/-- Freshly initialised 4-by-4 test device used by concrete witnesses. -/
def tchip : ChipState := chip_init_state 4 4 (fun _ => 0)

/-- Freshly initialised 2-by-2 test device used by the claim C1 witness. -/
def tchip2 : ChipState := chip_init_state 2 2 (fun _ => 0)

/-- Test device whose cursor transforms out of bounds (column 10 of 4). -/
def oobChip : ChipState := { tchip with active_column := 10 }

/-- Test device with the row-mirror bit (MY, bit 7) set. -/
def myChip : ChipState := { tchip with scanning_direction := 0x80 }

/-- Test device with `ram_write` armed. -/
def armedChip : ChipState := { tchip with ram_write := true }

/-- Test device in data mode with scrambled registers and framebuffer. -/
def junkChip : ChipState :=
  { tchip with
    mode := Mode.data
    scanning_direction := 5
    active_column := 3
    ram_write := true
    framebuffer := fun _ => 7 }

/-- Test device holding a decoded RASET command (start 100, end 120) with
the row-mirror bit set. -/
def rasetChip : ChipState :=
  { tchip with
    scanning_direction := 0x80
    command_code := 0x2b
    command_size := 4
    command_buf := fun j => if j = 1 then 100 else if j = 3 then 120 else 0 }

/-- Test device holding a decoded CASET command (start 40, end 20) with
the swap and row-mirror bits set, so CASET targets the page axis. -/
def casetMvChip : ChipState :=
  { tchip with
    scanning_direction := 0xa0
    command_code := 0x2a
    command_size := 4
    command_buf := fun j => if j = 1 then 40 else if j = 3 then 20 else 0 }

lemma advance_fb_update (chip : ChipState) (f : Nat → Nat) :
    advance { chip with framebuffer := f } = { advance chip with framebuffer := f } := by
  unfold advance; dsimp only; split_ifs <;> rfl

lemma sample_step_eq (chip : ChipState) (v : Nat) :
    sample_step chip v =
      { advance chip with framebuffer :=
          (if transformX chip < 0 ∨ (chip.width : Int) ≤ transformX chip ∨
             transformY chip < 0 ∨ (chip.height : Int) ≤ transformY chip then
            chip.framebuffer
          else
            fun j => if j = (transformY chip).toNat * chip.width + (transformX chip).toNat
                     then rgb565_to_rgba v else chip.framebuffer j) } := by
  simp only [sample_step, advance_fb_update]

lemma advance_width (chip : ChipState) : (advance chip).width = chip.width := by
  unfold advance; split_ifs <;> rfl

lemma advance_height (chip : ChipState) : (advance chip).height = chip.height := by
  unfold advance; split_ifs <;> rfl

lemma advance_sd (chip : ChipState) :
    (advance chip).scanning_direction = chip.scanning_direction := by
  unfold advance; split_ifs <;> rfl

lemma advance_cs (chip : ChipState) : (advance chip).column_start = chip.column_start := by
  unfold advance; split_ifs <;> rfl

lemma advance_ce (chip : ChipState) : (advance chip).column_end = chip.column_end := by
  unfold advance; split_ifs <;> rfl

lemma advance_ps (chip : ChipState) : (advance chip).page_start = chip.page_start := by
  unfold advance; split_ifs <;> rfl

lemma advance_pe (chip : ChipState) : (advance chip).page_end = chip.page_end := by
  unfold advance; split_ifs <;> rfl

lemma advance_fb (chip : ChipState) : (advance chip).framebuffer = chip.framebuffer := by
  unfold advance; split_ifs <;> rfl

lemma advance_rw (chip : ChipState) : (advance chip).ram_write = chip.ram_write := by
  unfold advance; split_ifs <;> rfl

lemma advance_mode (chip : ChipState) : (advance chip).mode = chip.mode := by
  unfold advance; split_ifs <;> rfl

lemma advance_cursor_in_window (chip : ChipState)
    (hce : chip.column_start ≤ chip.column_end) (hpe : chip.page_start ≤ chip.page_end)
    (h1 : chip.column_start ≤ chip.active_column) (h2 : chip.active_column ≤ chip.column_end)
    (h3 : chip.page_start ≤ chip.active_page) (h4 : chip.active_page ≤ chip.page_end) :
    chip.column_start ≤ (advance chip).active_column ∧
    (advance chip).active_column ≤ chip.column_end ∧
    chip.page_start ≤ (advance chip).active_page ∧
    (advance chip).active_page ≤ chip.page_end := by
  unfold advance; split_ifs <;> dsimp only <;> omega

lemma pixel_step_regs (chip : ChipState) (hi lo : Nat) :
    (pixel_step chip hi lo).width = chip.width ∧
    (pixel_step chip hi lo).height = chip.height ∧
    (pixel_step chip hi lo).column_start = chip.column_start ∧
    (pixel_step chip hi lo).column_end = chip.column_end ∧
    (pixel_step chip hi lo).page_start = chip.page_start ∧
    (pixel_step chip hi lo).page_end = chip.page_end ∧
    (pixel_step chip hi lo).scanning_direction = chip.scanning_direction ∧
    (pixel_step chip hi lo).ram_write = chip.ram_write ∧
    (pixel_step chip hi lo).mode = chip.mode := by
  simp only [pixel_step, sample_step_eq]
  exact ⟨advance_width chip, advance_height chip, advance_cs chip, advance_ce chip,
    advance_ps chip, advance_pe chip, advance_sd chip, advance_rw chip, advance_mode chip⟩

lemma sample_step_regs (chip : ChipState) (v : Nat) :
    (sample_step chip v).width = chip.width ∧
    (sample_step chip v).height = chip.height ∧
    (sample_step chip v).column_start = chip.column_start ∧
    (sample_step chip v).column_end = chip.column_end ∧
    (sample_step chip v).page_start = chip.page_start ∧
    (sample_step chip v).page_end = chip.page_end ∧
    (sample_step chip v).scanning_direction = chip.scanning_direction := by
  rw [sample_step_eq]
  exact ⟨advance_width chip, advance_height chip, advance_cs chip, advance_ce chip,
    advance_ps chip, advance_pe chip, advance_sd chip⟩

lemma sample_step_ac (chip : ChipState) (v : Nat) :
    (sample_step chip v).active_column = (advance chip).active_column := by
  rw [sample_step_eq]

lemma sample_step_ap (chip : ChipState) (v : Nat) :
    (sample_step chip v).active_page = (advance chip).active_page := by
  rw [sample_step_eq]

lemma sample_step_frame (chip : ChipState) (v : Nat) (i : Nat)
    (hiwh : chip.width * chip.height ≤ i) :
    (sample_step chip v).framebuffer i = chip.framebuffer i := by
  rw [sample_step_eq]
  dsimp only
  split_ifs with h
  · rfl
  · push_neg at h
    obtain ⟨h1, h2, h3, h4⟩ := h
    have hidx : (transformY chip).toNat * chip.width + (transformX chip).toNat
        < chip.width * chip.height := by
      have hx : (transformX chip).toNat < chip.width := by omega
      have hy : (transformY chip).toNat < chip.height := by omega
      calc (transformY chip).toNat * chip.width + (transformX chip).toNat
          < ((transformY chip).toNat + 1) * chip.width := by rw [Nat.succ_mul]; omega
        _ ≤ chip.height * chip.width := Nat.mul_le_mul_right _ (by omega)
        _ = chip.width * chip.height := Nat.mul_comm _ _
    exact if_neg (by omega)

lemma process_data_regs : ∀ (bs : List Nat) (chip : ChipState),
    (process_data chip bs).width = chip.width ∧
    (process_data chip bs).height = chip.height ∧
    (process_data chip bs).column_start = chip.column_start ∧
    (process_data chip bs).column_end = chip.column_end ∧
    (process_data chip bs).page_start = chip.page_start ∧
    (process_data chip bs).page_end = chip.page_end ∧
    (process_data chip bs).scanning_direction = chip.scanning_direction ∧
    (process_data chip bs).ram_write = chip.ram_write ∧
    (process_data chip bs).mode = chip.mode
  | [], chip => ⟨rfl, rfl, rfl, rfl, rfl, rfl, rfl, rfl, rfl⟩
  | [b], chip => ⟨rfl, rfl, rfl, rfl, rfl, rfl, rfl, rfl, rfl⟩
  | hi :: lo :: rest, chip => by
      rw [show process_data chip (hi :: lo :: rest)
            = process_data (pixel_step chip hi lo) rest from rfl]
      obtain ⟨a1, a2, a3, a4, a5, a6, a7, a8, a9⟩ :=
        process_data_regs rest (pixel_step chip hi lo)
      obtain ⟨b1, b2, b3, b4, b5, b6, b7, b8, b9⟩ := pixel_step_regs chip hi lo
      exact ⟨a1.trans b1, a2.trans b2, a3.trans b3, a4.trans b4, a5.trans b5,
        a6.trans b6, a7.trans b7, a8.trans b8, a9.trans b9⟩

lemma process_data_frame : ∀ (bs : List Nat) (chip : ChipState) (i : Nat),
    chip.width * chip.height ≤ i →
    (process_data chip bs).framebuffer i = chip.framebuffer i
  | [], chip, i, _ => rfl
  | [b], chip, i, _ => rfl
  | hi :: lo :: rest, chip, i, h => by
      rw [show process_data chip (hi :: lo :: rest)
            = process_data (pixel_step chip hi lo) rest from rfl]
      obtain ⟨b1, b2, _⟩ := pixel_step_regs chip hi lo
      rw [process_data_frame rest (pixel_step chip hi lo) i (by rw [b1, b2]; exact h)]
      simp only [pixel_step]
      exact sample_step_frame chip _ i h

lemma process_data_in_window : ∀ (bs : List Nat) (chip : ChipState),
    chip.column_start ≤ chip.column_end → chip.page_start ≤ chip.page_end →
    chip.column_start ≤ chip.active_column → chip.active_column ≤ chip.column_end →
    chip.page_start ≤ chip.active_page → chip.active_page ≤ chip.page_end →
    chip.column_start ≤ (process_data chip bs).active_column ∧
    (process_data chip bs).active_column ≤ chip.column_end ∧
    chip.page_start ≤ (process_data chip bs).active_page ∧
    (process_data chip bs).active_page ≤ chip.page_end
  | [], chip, _, _, h3, h4, h5, h6 => ⟨h3, h4, h5, h6⟩
  | [b], chip, _, _, h3, h4, h5, h6 => ⟨h3, h4, h5, h6⟩
  | hi :: lo :: rest, chip, hce, hpe, h3, h4, h5, h6 => by
      rw [show process_data chip (hi :: lo :: rest)
            = process_data (pixel_step chip hi lo) rest from rfl]
      obtain ⟨b1, b2, b3, b4, b5, b6, b7, b8, b9⟩ := pixel_step_regs chip hi lo
      have hadv := advance_cursor_in_window chip hce hpe h3 h4 h5 h6
      have hac : (pixel_step chip hi lo).active_column = (advance chip).active_column := by
        simp only [pixel_step]; exact sample_step_ac chip _
      have hap : (pixel_step chip hi lo).active_page = (advance chip).active_page := by
        simp only [pixel_step]; exact sample_step_ap chip _
      have ih := process_data_in_window rest (pixel_step chip hi lo)
        (by rw [b3, b4]; exact hce) (by rw [b5, b6]; exact hpe)
        (by rw [b3, hac]; exact hadv.1) (by rw [b4, hac]; exact hadv.2.1)
        (by rw [b5, hap]; exact hadv.2.2.1) (by rw [b6, hap]; exact hadv.2.2.2)
      rw [b3, b4, b5, b6] at ih
      exact ih

lemma execute_command_rw (chip : ChipState) :
    (execute_command chip).ram_write =
      if chip.command_code = 0x2c then true
      else if chip.command_code = 0xc0 ∨ chip.command_code = 0x01 then false
      else chip.ram_write := by
  unfold execute_command
  by_cases h1 : chip.command_code = 0x2c
  · rw [if_pos h1, if_pos h1]
  · rw [if_neg h1, if_neg h1]
    by_cases h2 : chip.command_code = 0x36
    · have h4 : ¬(chip.command_code = 0xc0 ∨ chip.command_code = 0x01) := by omega
      rw [if_pos h2, if_neg h4]
    · rw [if_neg h2]
      by_cases h3 : chip.command_code = 0x2a ∨ chip.command_code = 0x2b
      · have h4 : ¬(chip.command_code = 0xc0 ∨ chip.command_code = 0x01) := by omega
        rw [if_pos h3, if_neg h4]
        dsimp only
        split_ifs <;> rfl
      · rw [if_neg h3]
        by_cases h4 : chip.command_code = 0xc0 ∨ chip.command_code = 0x01
        · rw [if_pos h4, if_pos h4]
          rfl
        · rw [if_neg h4, if_neg h4]

lemma execute_window_page (chip : ChipState)
    (hs : chip.command_size = 4)
    (hpage : (chip.scanning_direction.testBit 5 = true ∧ chip.command_code = 0x2a) ∨
             (chip.scanning_direction.testBit 5 = false ∧ chip.command_code = 0x2b)) :
    execute_command chip =
      { chip with
        active_page :=
          if chip.scanning_direction.testBit 7 ∧
             32 ≤ chip.command_buf 0 % 256 * 256 + chip.command_buf 1 % 256
          then chip.command_buf 0 % 256 * 256 + chip.command_buf 1 % 256 - 32
          else chip.command_buf 0 % 256 * 256 + chip.command_buf 1 % 256
        page_start :=
          if chip.scanning_direction.testBit 7 ∧
             32 ≤ chip.command_buf 0 % 256 * 256 + chip.command_buf 1 % 256
          then chip.command_buf 0 % 256 * 256 + chip.command_buf 1 % 256 - 32
          else chip.command_buf 0 % 256 * 256 + chip.command_buf 1 % 256
        page_end :=
          if chip.scanning_direction.testBit 7 ∧
             32 ≤ chip.command_buf 2 % 256 * 256 + chip.command_buf 3 % 256
          then chip.command_buf 2 % 256 * 256 + chip.command_buf 3 % 256 - 32
          else chip.command_buf 2 % 256 * 256 + chip.command_buf 3 % 256 } := by
  rcases hpage with ⟨h5, hc⟩ | ⟨h5, hc⟩ <;>
    (unfold execute_command
     rw [hc, hs, h5]
     norm_num
     split_ifs <;> first | rfl | simp_all)

lemma execute_window_col (chip : ChipState)
    (hs : chip.command_size = 4)
    (hcol : (chip.scanning_direction.testBit 5 = true ∧ chip.command_code = 0x2b) ∨
            (chip.scanning_direction.testBit 5 = false ∧ chip.command_code = 0x2a)) :
    execute_command chip =
      { chip with
        active_column := chip.command_buf 0 % 256 * 256 + chip.command_buf 1 % 256
        column_start := chip.command_buf 0 % 256 * 256 + chip.command_buf 1 % 256
        column_end := chip.command_buf 2 % 256 * 256 + chip.command_buf 3 % 256 } := by
  rcases hcol with ⟨h5, hc⟩ | ⟨h5, hc⟩ <;>
    (unfold execute_command
     rw [hc, hs, h5]
     norm_num)

lemma process_command_byte_rw (chip : ChipState) (b : Nat) :
    (process_command_byte chip b).ram_write =
      if b % 256 = 0x2c then true else if b % 256 = 0x01 then false else chip.ram_write := by
  unfold process_command_byte
  dsimp only
  by_cases h2c : b % 256 = 0x2c
  · rw [if_pos (by rw [h2c]; rfl), execute_command_rw]
    dsimp only
    rw [if_pos h2c, if_pos h2c]
  · by_cases h01 : b % 256 = 0x01
    · rw [if_pos (by rw [h01]; rfl), execute_command_rw]
      dsimp only
      rw [if_neg h2c, if_neg h2c, if_pos (Or.inr h01), if_pos h01]
    · rw [if_neg h2c, if_neg h01]
      by_cases hz : command_args_size (b % 256) = 0
      · rw [if_pos hz, execute_command_rw]
        dsimp only
        have hc0 : ¬(b % 256 = 0xc0) := by
          intro hc
          rw [hc] at hz
          exact absurd hz (by decide)
        rw [if_neg h2c, if_neg (by omega)]
      · rw [if_neg hz]

lemma process_command_fold_rw : ∀ (bs : List Nat) (chip : ChipState),
    (List.foldl process_command_byte chip bs).ram_write =
      List.foldl
        (fun a b => if b % 256 = 0x2c then true else if b % 256 = 0x01 then false else a)
        chip.ram_write bs
  | [], chip => rfl
  | b :: rest, chip => by
      rw [List.foldl_cons, List.foldl_cons, process_command_fold_rw rest,
        process_command_byte_rw]

lemma process_command_args_no_exec : ∀ (args : List Nat) (chip : ChipState),
    chip.command_index + args.length < chip.command_size →
    ∃ F, process_command_args chip args =
      { chip with command_buf := F, command_index := chip.command_index + args.length }
  | [], chip, _ => ⟨chip.command_buf, by simp [process_command_args]⟩
  | b :: rest, chip, h => by
      have hlt : chip.command_index < chip.command_size := by
        have := List.length_cons b rest
        omega
      have hstep : process_command_args_byte chip b =
          { chip with
            command_buf := fun j => if j = chip.command_index then b % 256
                                    else chip.command_buf j
            command_index := chip.command_index + 1 } := by
        unfold process_command_args_byte
        rw [if_pos hlt]
        dsimp only
        rw [if_neg (by have := List.length_cons b rest; omega)]
      have hrec := process_command_args_no_exec rest (process_command_args_byte chip b)
        (by rw [hstep]; dsimp only; have := List.length_cons b rest; omega)
      obtain ⟨F, hF⟩ := hrec
      refine ⟨F, ?_⟩
      unfold process_command_args at hF ⊢
      rw [List.foldl_cons, hF, hstep]
      dsimp only
      have harith : chip.command_index + 1 + rest.length
          = chip.command_index + (rest.length + 1) := by omega
      rw [harith, List.length_cons]

lemma clear_fb_spec : ∀ (n : Nat) (fb : Nat → Nat) (j : Nat),
    clear_fb fb n j = if j < n then 0xff000000 else fb j
  | 0, fb, j => by simp [clear_fb]
  | n + 1, fb, j => by
      simp only [clear_fb]
      by_cases hj : j = n
      · rw [if_pos hj, if_pos (by omega)]
      · rw [if_neg hj, clear_fb_spec n fb j]
        by_cases hlt : j < n
        · rw [if_pos hlt, if_pos (by omega)]
        · rw [if_neg hlt, if_neg (by omega)]

lemma succ_mod_div_no_wrap (k W : Nat) (h : k % W + 1 < W) :
    (k + 1) % W = k % W + 1 ∧ (k + 1) / W = k / W := by
  have hW : 0 < W := by omega
  have hdm := Nat.div_add_mod k W
  have hk1 : k + 1 = k % W + 1 + W * (k / W) := by omega
  constructor
  · rw [hk1, Nat.add_mul_mod_self_left, Nat.mod_eq_of_lt h]
  · rw [hk1, Nat.add_mul_div_left _ _ hW, Nat.div_eq_of_lt h]
    omega

lemma succ_mod_div_wrap (k W : Nat) (hW : 0 < W) (h : k % W + 1 = W) :
    (k + 1) % W = 0 ∧ (k + 1) / W = k / W + 1 := by
  have hdm := Nat.div_add_mod k W
  have hk1 : k + 1 = W * (k / W + 1) := by
    rw [Nat.mul_add, Nat.mul_one]
    omega
  constructor
  · rw [hk1, Nat.mul_mod_right]
  · rw [hk1, Nat.mul_div_cancel_left _ hW]

lemma sample_step_linear (W H k : Nat) (hW : 0 < W) (hH : 0 < H) (hk : k < W * H)
    (chip : ChipState) (v : Nat)
    (hw : chip.width = W) (hh : chip.height = H) (hsd : chip.scanning_direction = 0)
    (hcs : chip.column_start = 0) (hce : chip.column_end = W - 1)
    (hps : chip.page_start = 0) (hpe : chip.page_end = H - 1)
    (hac : chip.active_column = k % W) (hap : chip.active_page = k / W) :
    (sample_step chip v).framebuffer
        = (fun j => if j = k then rgb565_to_rgba v else chip.framebuffer j) ∧
    (k + 1 < W * H →
      (sample_step chip v).active_column = (k + 1) % W ∧
      (sample_step chip v).active_page = (k + 1) / W) ∧
    (k + 1 = W * H →
      (sample_step chip v).active_column = 0 ∧
      (sample_step chip v).active_page = 0) := by
  have h5 : chip.scanning_direction.testBit 5 = false := by
    rw [hsd]; exact Nat.zero_testBit _
  have h6 : chip.scanning_direction.testBit 6 = false := by
    rw [hsd]; exact Nat.zero_testBit _
  have h7 : chip.scanning_direction.testBit 7 = false := by
    rw [hsd]; exact Nat.zero_testBit _
  have hxlt : k % W < W := Nat.mod_lt _ hW
  have hylt : k / W < H := Nat.div_lt_of_lt_mul hk
  have hX : transformX chip = ((k % W : Nat) : Int) := by
    unfold transformX
    simp only [h5, h7, Bool.false_eq_true, if_false]
    rw [hac]
  have hY : transformY chip = ((k / W : Nat) : Int) := by
    unfold transformY
    simp only [h5, h6, Bool.false_eq_true, if_false]
    rw [hap]
  refine ⟨?_, ?_, ?_⟩
  · rw [sample_step_eq]
    dsimp only
    rw [hX, hY, hw, hh]
    rw [if_neg (by push_neg; exact ⟨Int.natCast_nonneg _, by exact_mod_cast hxlt,
      Int.natCast_nonneg _, by exact_mod_cast hylt⟩)]
    have hidx : (((k / W : Nat) : Int)).toNat * W + (((k % W : Nat) : Int)).toNat
        = k := by
      rw [Int.toNat_natCast, Int.toNat_natCast]
      calc k / W * W + k % W = W * (k / W) + k % W := by rw [Nat.mul_comm]
        _ = k := Nat.div_add_mod k W
    rw [hidx]
  · intro hk1
    have hcase : k % W + 1 < W ∨ k % W + 1 = W := by omega
    constructor
    · rw [sample_step_ac]
      unfold advance
      simp only [h5, Bool.false_eq_true, if_false]
      rw [hce, hac, hcs]
      rcases hcase with hnw | hwr
      · rw [if_neg (by omega)]
        exact ((succ_mod_div_no_wrap k W hnw).1).symm
      · rw [if_pos (by omega)]
        exact ((succ_mod_div_wrap k W hW hwr).1).symm
    · rw [sample_step_ap]
      unfold advance
      simp only [h5, Bool.false_eq_true, if_false]
      rw [hce, hac, hps, hpe, hap]
      rcases hcase with hnw | hwr
      · rw [if_neg (by omega)]
        exact ((succ_mod_div_no_wrap k W hnw).2).symm
      · have hdiv : (k + 1) / W = k / W + 1 := (succ_mod_div_wrap k W hW hwr).2
        have hlt : k / W + 1 < H := by
          have := Nat.div_lt_of_lt_mul hk1
          omega
        rw [if_pos (by omega), if_neg (by omega)]
        exact hdiv.symm
  · intro hk1
    have hwr : k % W + 1 = W := by
      by_contra hnw
      have hlt : k % W + 1 < W := by omega
      have h1 := (succ_mod_div_no_wrap k W hlt).1
      rw [hk1, Nat.mul_mod_right] at h1
      omega
    have hdiv : (k + 1) / W = k / W + 1 := (succ_mod_div_wrap k W hW hwr).2
    have hdH : k / W + 1 = H := by
      rw [← hdiv, hk1, Nat.mul_div_cancel_left _ hW]
    constructor
    · rw [sample_step_ac]
      unfold advance
      simp only [h5, Bool.false_eq_true, if_false]
      rw [hce, hac, hcs]
      rw [if_pos (by omega)]
    · rw [sample_step_ap]
      unfold advance
      simp only [h5, Bool.false_eq_true, if_false]
      rw [hce, hac, hps, hpe, hap]
      rw [if_pos (by omega), if_pos (by omega)]

lemma process_samples_rowmajor : ∀ (vs : List Nat) (chip : ChipState) (W H k : Nat),
    0 < W → 0 < H →
    chip.width = W → chip.height = H → chip.scanning_direction = 0 →
    chip.column_start = 0 → chip.column_end = W - 1 →
    chip.page_start = 0 → chip.page_end = H - 1 →
    chip.active_column = k % W → chip.active_page = k / W →
    k + vs.length ≤ W * H →
    ∀ i, i < W * H →
      (process_samples chip vs).framebuffer i =
        if k ≤ i ∧ i < k + vs.length then rgb565_to_rgba (vs.getD (i - k) 0)
        else chip.framebuffer i
  | [], chip, W, H, k, _, _, _, _, _, _, _, _, _, _, _, _ => by
      intro i _
      rw [show process_samples chip [] = chip from rfl,
        if_neg (by rw [List.length_nil]; omega)]
  | v :: rest, chip, W, H, k, hW, hH, hw, hh, hsd, hcs, hce, hps, hpe, hac, hap, hlen => by
      intro i hi
      have hlc := List.length_cons v rest
      have hk : k < W * H := by omega
      obtain ⟨hfb, hcur1, hcur2⟩ :=
        sample_step_linear W H k hW hH hk chip v hw hh hsd hcs hce hps hpe hac hap
      have hfb' : (sample_step chip v).framebuffer i
          = if i = k then rgb565_to_rgba v else chip.framebuffer i := by
        rw [hfb]
      obtain ⟨r1, r2, r3, r4, r5, r6, r7⟩ := sample_step_regs chip v
      rw [show process_samples chip (v :: rest)
            = process_samples (sample_step chip v) rest from rfl]
      rcases Nat.lt_or_ge (k + 1) (W * H) with hk1 | hk1
      · obtain ⟨hc1, hc2⟩ := hcur1 hk1
        have ih := process_samples_rowmajor rest (sample_step chip v) W H (k + 1) hW hH
          (r1.trans hw) (r2.trans hh) (r7.trans hsd) (r3.trans hcs) (r4.trans hce)
          (r5.trans hps) (r6.trans hpe) hc1 hc2 (by omega) i hi
        rw [ih, hfb']
        by_cases hik : i = k
        · rw [if_neg (by omega), if_pos hik, if_pos (by omega)]
          rw [hik, Nat.sub_self, List.getD_cons_zero]
        · by_cases hrange : k + 1 ≤ i ∧ i < k + 1 + rest.length
          · rw [if_pos hrange, if_pos (by omega)]
            have e : i - k = i - (k + 1) + 1 := by omega
            rw [e, List.getD_cons_succ]
          · rw [if_neg hrange, if_neg hik, if_neg (by omega)]
      · have hk1' : k + 1 = W * H := by omega
        have hrest : rest = [] := by
          have : rest.length = 0 := by omega
          exact List.eq_nil_of_length_eq_zero this
        subst hrest
        rw [show process_samples (sample_step chip v) [] = sample_step chip v from rfl,
          hfb']
        by_cases hik : i = k
        · rw [if_pos hik, if_pos (by rw [List.length_cons, List.length_nil]; omega)]
          rw [hik, Nat.sub_self, List.getD_cons_zero]
        · rw [if_neg hik, if_neg (by rw [List.length_cons, List.length_nil]; omega)]

lemma toSamples_length : ∀ bs : List Nat, (toSamples bs).length = bs.length / 2
  | [] => rfl
  | [b] => by simp [toSamples]
  | hi :: lo :: rest => by
      rw [show toSamples (hi :: lo :: rest)
            = (hi % 256 * 256 + lo % 256) :: toSamples rest from rfl]
      rw [List.length_cons, toSamples_length rest, List.length_cons, List.length_cons]
      omega

lemma toSamples_getD : ∀ (bs : List Nat) (i : Nat), i < bs.length / 2 →
    (toSamples bs).getD i 0 =
      bs.getD (2 * i) 0 % 256 * 256 + bs.getD (2 * i + 1) 0 % 256
  | [], i, h => by
      rw [List.length_nil] at h
      omega
  | [b], i, h => by
      rw [show ([b] : List Nat).length = 1 from rfl] at h
      omega
  | hi :: lo :: rest, i, h => by
      rw [show toSamples (hi :: lo :: rest)
            = (hi % 256 * 256 + lo % 256) :: toSamples rest from rfl]
      cases i with
      | zero =>
          rw [Nat.mul_zero]
          simp only [List.getD_cons_zero, List.getD_cons_succ]
      | succ n =>
          rw [List.getD_cons_succ]
          have hlen : n < rest.length / 2 := by
            rw [List.length_cons, List.length_cons] at h
            omega
          rw [toSamples_getD rest n hlen]
          have e1 : 2 * (n + 1) = 2 * n + 1 + 1 := by omega
          rw [e1]
          simp only [List.getD_cons_succ]

lemma pd_eq_samples : ∀ (bs : List Nat) (chip : ChipState),
    process_data chip bs = process_samples chip (toSamples bs)
  | [], _ => rfl
  | [_], _ => rfl
  | hi :: lo :: rest, chip => by
      rw [show process_data chip (hi :: lo :: rest)
            = process_data (pixel_step chip hi lo) rest from rfl]
      rw [show toSamples (hi :: lo :: rest)
            = (hi % 256 * 256 + lo % 256) :: toSamples rest from rfl]
      rw [show process_samples chip ((hi % 256 * 256 + lo % 256) :: toSamples rest)
            = process_samples (sample_step chip (hi % 256 * 256 + lo % 256))
                (toSamples rest) from rfl]
      rw [pd_eq_samples rest (pixel_step chip hi lo)]
      rfl

/-- Claim C1: with the addressing window set to the full W-by-H framebuffer,
scanning direction 0 and the cursor at the origin, feeding exactly W*H
consecutive big-endian 16-bit samples in armed data mode writes the
framebuffer in row-major order: cell i receives the i-th sample expanded by
the 5/6/5-to-8/8/8 bit replication with full alpha. -/
theorem claim1_roundtrip_rowmajor (chip : ChipState) (W H : Nat) (bs : List Nat)
    (hW : 0 < W) (hH : 0 < H)
    (hw : chip.width = W) (hh : chip.height = H)
    (hsd : chip.scanning_direction = 0)
    (hcs : chip.column_start = 0) (hce : chip.column_end = W - 1)
    (hps : chip.page_start = 0) (hpe : chip.page_end = H - 1)
    (hac : chip.active_column = 0) (hap : chip.active_page = 0)
    (hlen : bs.length = 2 * (W * H)) :
    ∀ i, i < W * H →
      (process_data chip bs).framebuffer i =
        rgb565_to_rgba (bs.getD (2 * i) 0 % 256 * 256 + bs.getD (2 * i + 1) 0 % 256) := by
  intro i hi
  rw [pd_eq_samples]
  have hlen2 : (toSamples bs).length = W * H := by
    rw [toSamples_length, hlen]
    omega
  have h := process_samples_rowmajor (toSamples bs) chip W H 0 hW hH hw hh hsd hcs hce
    hps hpe (by rw [hac, Nat.zero_mod]) (by rw [hap, Nat.zero_div])
    (by rw [hlen2]; omega) i hi
  rw [h, if_pos ⟨Nat.zero_le i, by rw [hlen2]; omega⟩, Nat.sub_zero]
  rw [toSamples_getD bs i (by rw [hlen]; omega)]

/-- Witness for claim C1 on a concrete 2-by-2 device and four samples. -/
theorem claim1_witness :
    (process_data tchip2 [248, 0, 7, 224, 0, 31, 255, 255]).framebuffer 2
        = rgb565_to_rgba ([248, 0, 7, 224, 0, 31, 255, 255].getD (2 * 2) 0 % 256 * 256
            + [248, 0, 7, 224, 0, 31, 255, 255].getD (2 * 2 + 1) 0 % 256) :=
  claim1_roundtrip_rowmajor tchip2 2 2 [248, 0, 7, 224, 0, 31, 255, 255]
    (by decide) (by decide) rfl rfl rfl rfl rfl rfl rfl rfl rfl (by decide) 2 (by decide)

/-- Counterexample to claim C2 as stated: in the batch RAMWR-then-NOP the
zero-argument NOP is a later command byte executed after RAMWR, yet
`ram_write` is still true afterwards, because `process_command` clears the
flag only at the start of a batch, not at every command byte. -/
theorem claim2_counterexample :
    (process_command tchip [0x2c, 0x00]).ram_write = true := by decide

/-- Claim C2 (amended): `ram_write` is cleared at the start of each command
batch; within the batch a RAMWR byte sets it, a SWRESET byte clears it, and
every other command byte leaves it unchanged, so after the batch it equals
the `armed_after` fold of the batch bytes. -/
theorem claim2_ram_write_batch (chip : ChipState) (bs : List Nat) :
    (process_command chip bs).ram_write = armed_after bs := by
  unfold process_command armed_after
  rw [process_command_fold_rw]

/-- Counterexample to claim C3 as stated: with the row-mirror bit set, RASET
with arguments [0,100,0,120] stores page start 68, not the decoded 100 the
claim predicts, because of the 32-offset correction. -/
theorem claim3_counterexample :
    (process_command_args (process_command myChip [0x2b]) [0, 100, 0, 120]).page_start = 68 := by
  decide

/-- Claim C3 (amended): executing CASET or RASET with its 4 argument bytes
sets the targeted axis (selected by the swap bit, inverting the
CASET-column / RASET-page mapping when set) to the decoded big-endian
values with cursor at start, leaving the other axis untouched, except that
a page-axis update with the row-mirror bit set subtracts 32 from each
value that is at least 32. -/
theorem claim3_window_set (chip : ChipState) (code a0 a2 : Nat)
    (hcode : code = 0x2a ∨ code = 0x2b)
    (hc : chip.command_code = code) (hs : chip.command_size = 4)
    (ha0 : a0 = chip.command_buf 0 % 256 * 256 + chip.command_buf 1 % 256)
    (ha2 : a2 = chip.command_buf 2 % 256 * 256 + chip.command_buf 3 % 256) :
    ((if chip.scanning_direction.testBit 5 then code = 0x2a else code = 0x2b) →
      (execute_command chip).page_start
          = (if chip.scanning_direction.testBit 7 ∧ 32 ≤ a0 then a0 - 32 else a0) ∧
      (execute_command chip).page_end
          = (if chip.scanning_direction.testBit 7 ∧ 32 ≤ a2 then a2 - 32 else a2) ∧
      (execute_command chip).active_page
          = (if chip.scanning_direction.testBit 7 ∧ 32 ≤ a0 then a0 - 32 else a0) ∧
      (execute_command chip).active_column = chip.active_column ∧
      (execute_command chip).column_start = chip.column_start ∧
      (execute_command chip).column_end = chip.column_end) ∧
    ((if chip.scanning_direction.testBit 5 then code = 0x2b else code = 0x2a) →
      (execute_command chip).column_start = a0 ∧
      (execute_command chip).column_end = a2 ∧
      (execute_command chip).active_column = a0 ∧
      (execute_command chip).active_page = chip.active_page ∧
      (execute_command chip).page_start = chip.page_start ∧
      (execute_command chip).page_end = chip.page_end) := by
  subst ha0 ha2
  constructor
  · intro hp
    have hpage : (chip.scanning_direction.testBit 5 = true ∧ chip.command_code = 0x2a) ∨
        (chip.scanning_direction.testBit 5 = false ∧ chip.command_code = 0x2b) := by
      by_cases h5 : chip.scanning_direction.testBit 5
      · left
        refine ⟨h5, ?_⟩
        rw [hc]
        simpa [h5] using hp
      · right
        refine ⟨by simpa using h5, ?_⟩
        rw [hc]
        simpa [h5] using hp
    rw [execute_window_page chip hs hpage]
    exact ⟨rfl, rfl, rfl, rfl, rfl, rfl⟩
  · intro hp
    have hcol : (chip.scanning_direction.testBit 5 = true ∧ chip.command_code = 0x2b) ∨
        (chip.scanning_direction.testBit 5 = false ∧ chip.command_code = 0x2a) := by
      by_cases h5 : chip.scanning_direction.testBit 5
      · left
        refine ⟨h5, ?_⟩
        rw [hc]
        simpa [h5] using hp
      · right
        refine ⟨by simpa using h5, ?_⟩
        rw [hc]
        simpa [h5] using hp
    rw [execute_window_col chip hs hcol]
    exact ⟨rfl, rfl, rfl, rfl, rfl, rfl⟩

/-- Witness for claim C3 on the concrete RASET device with MY set. -/
theorem claim3_witness : (execute_command rasetChip).page_start = 68 := by
  have h := claim3_window_set rasetChip 0x2b 100 120 (Or.inr rfl) rfl rfl
    (by decide) (by decide)
  exact ((h.1 (by decide)).1).trans (by decide)

/-- Claim C4: one armed sample lands at the cross-wired transformed
coordinate: with the swap bit set, the column-mirror bit mirrors X across
the width and the row-mirror bit mirrors Y across the height; with the swap
bit clear the two mirror bits swap roles; all other cells are unchanged. -/
theorem claim4_transform_crosswired (chip : ChipState) (v : Nat) (x y : Int)
    (hx : x = if chip.scanning_direction.testBit 5
              then (if chip.scanning_direction.testBit 6
                    then (chip.width : Int) - 1 - chip.active_column
                    else (chip.active_column : Int))
              else (if chip.scanning_direction.testBit 7
                    then (chip.width : Int) - 1 - chip.active_column
                    else (chip.active_column : Int)))
    (hy : y = if chip.scanning_direction.testBit 5
              then (if chip.scanning_direction.testBit 7
                    then (chip.height : Int) - 1 - chip.active_page
                    else (chip.active_page : Int))
              else (if chip.scanning_direction.testBit 6
                    then (chip.height : Int) - 1 - chip.active_page
                    else (chip.active_page : Int)))
    (hx0 : 0 ≤ x) (hxw : x < (chip.width : Int))
    (hy0 : 0 ≤ y) (hyh : y < (chip.height : Int)) :
    (sample_step chip v).framebuffer (y.toNat * chip.width + x.toNat) = rgb565_to_rgba v ∧
    ∀ j, j ≠ y.toNat * chip.width + x.toNat →
      (sample_step chip v).framebuffer j = chip.framebuffer j := by
  have hx' : transformX chip = x := by rw [hx]; rfl
  have hy' : transformY chip = y := by rw [hy]; rfl
  rw [sample_step_eq]
  dsimp only
  rw [hx', hy', if_neg (by omega)]
  constructor
  · exact if_pos rfl
  · intro j hj; exact if_neg hj

/-- Witness for claim C4 on a concrete in-bounds sample. -/
theorem claim4_witness :
    (sample_step tchip 63488).framebuffer 0 = rgb565_to_rgba 63488 := by
  have h := claim4_transform_crosswired tchip 63488 0 0 (by decide) (by decide)
    (by decide) (by decide) (by decide) (by decide)
  simpa using h.1

/-- Claim C5: for every pixel stream processed in armed data mode over a
well-formed window containing the cursor, the cursor stays inside
[columnStart, columnEnd] and [pageStart, pageEnd] after every sample. -/
theorem claim5_cursor_in_window (chip : ChipState) (bs : List Nat)
    (hce : chip.column_start ≤ chip.column_end) (hpe : chip.page_start ≤ chip.page_end)
    (h1 : chip.column_start ≤ chip.active_column) (h2 : chip.active_column ≤ chip.column_end)
    (h3 : chip.page_start ≤ chip.active_page) (h4 : chip.active_page ≤ chip.page_end) :
    chip.column_start ≤ (process_data chip bs).active_column ∧
    (process_data chip bs).active_column ≤ chip.column_end ∧
    chip.page_start ≤ (process_data chip bs).active_page ∧
    (process_data chip bs).active_page ≤ chip.page_end :=
  process_data_in_window bs chip hce hpe h1 h2 h3 h4

/-- Witness for claim C5 on a concrete device and byte stream. -/
theorem claim5_witness :
    tchip.column_start ≤ (process_data tchip [10, 20, 30, 40, 50, 60]).active_column ∧
    (process_data tchip [10, 20, 30, 40, 50, 60]).active_column ≤ tchip.column_end ∧
    tchip.page_start ≤ (process_data tchip [10, 20, 30, 40, 50, 60]).active_page ∧
    (process_data tchip [10, 20, 30, 40, 50, 60]).active_page ≤ tchip.page_end :=
  claim5_cursor_in_window tchip [10, 20, 30, 40, 50, 60]
    (by decide) (by decide) (by decide) (by decide) (by decide) (by decide)

/-- Counterexample to claim C6 as stated: CASET with arguments [0,5,0,3]
stores columnStart 5 and columnEnd 3, so columnStart is not at most
columnEnd: the code stores the decoded values without any validation. -/
theorem claim6_counterexample :
    (process_command_args (process_command tchip [0x2a]) [0, 5, 0, 3]).column_start = 5 ∧
    (process_command_args (process_command tchip [0x2a]) [0, 5, 0, 3]).column_end = 3 ∧
    ¬((process_command_args (process_command tchip [0x2a]) [0, 5, 0, 3]).column_start ≤
      (process_command_args (process_command tchip [0x2a]) [0, 5, 0, 3]).column_end) := by
  decide

/-- Claim C6 (amended): a malformed window-set command, a CASET or RASET
opcode byte followed by fewer than 4 argument bytes, leaves the whole
addressing window and both cursors unchanged; a successful one stores the
decoded values verbatim with no ordering or bounds validation. -/
theorem claim6_malformed_window (chip : ChipState) (code : Nat) (args : List Nat)
    (hcode : code = 0x2a ∨ code = 0x2b) (hlen : args.length < 4) :
    (process_command_args (process_command chip [code]) args).column_start
        = chip.column_start ∧
    (process_command_args (process_command chip [code]) args).column_end
        = chip.column_end ∧
    (process_command_args (process_command chip [code]) args).page_start
        = chip.page_start ∧
    (process_command_args (process_command chip [code]) args).page_end
        = chip.page_end ∧
    (process_command_args (process_command chip [code]) args).active_column
        = chip.active_column ∧
    (process_command_args (process_command chip [code]) args).active_page
        = chip.active_page := by
  have h1 : process_command chip [code]
      = { chip with
          ram_write := false
          command_code := code
          command_size := 4
          command_index := 0 } := by
    rcases hcode with h | h <;> subst h <;> rfl
  rw [h1]
  obtain ⟨F, hF⟩ := process_command_args_no_exec args
    { chip with
      ram_write := false
      command_code := code
      command_size := 4
      command_index := 0 }
    (show 0 + args.length < 4 by omega)
  rw [hF]
  exact ⟨rfl, rfl, rfl, rfl, rfl, rfl⟩

/-- Witness for claim C6 on a RASET with only 2 argument bytes. -/
theorem claim6_witness :
    (process_command_args (process_command tchip [0x2b]) [0, 9]).page_start
        = tchip.page_start ∧
    (process_command_args (process_command tchip [0x2b]) [0, 9]).page_end
        = tchip.page_end := by
  have h := claim6_malformed_window tchip 0x2b [0, 9] (Or.inr rfl) (by decide)
  exact ⟨h.2.2.1, h.2.2.2.1⟩

/-- Counterexample to claim C7 as stated: with the row-mirror bit set, RASET
with start 20 (below 32) stores page start 20, not the 0 that clamping at 0
would give: sub-32 values are left unchanged, not clamped. -/
theorem claim7_counterexample :
    (process_command_args (process_command myChip [0x2b]) [0, 20, 0, 100]).page_start = 20 ∧
    (process_command_args (process_command myChip [0x2b]) [0, 20, 0, 100]).page_start ≠ 0 := by
  decide

/-- Claim C7 (amended): when a window-set command targets the page axis and
the row-mirror bit is set, 32 is subtracted from start, end and the page
cursor for each value at least 32, and each value below 32 is left
unchanged; page updates with the bit clear and the column axis are never
corrected. -/
theorem claim7_offset_correction (chip : ChipState) (code a0 a2 : Nat)
    (hcode : code = 0x2a ∨ code = 0x2b)
    (hc : chip.command_code = code) (hs : chip.command_size = 4)
    (ha0 : a0 = chip.command_buf 0 % 256 * 256 + chip.command_buf 1 % 256)
    (ha2 : a2 = chip.command_buf 2 % 256 * 256 + chip.command_buf 3 % 256) :
    ((if chip.scanning_direction.testBit 5 then code = 0x2a else code = 0x2b) →
      (chip.scanning_direction.testBit 7 = true →
        (execute_command chip).page_start = (if 32 ≤ a0 then a0 - 32 else a0) ∧
        (execute_command chip).page_end = (if 32 ≤ a2 then a2 - 32 else a2) ∧
        (execute_command chip).active_page = (if 32 ≤ a0 then a0 - 32 else a0)) ∧
      (chip.scanning_direction.testBit 7 = false →
        (execute_command chip).page_start = a0 ∧
        (execute_command chip).page_end = a2 ∧
        (execute_command chip).active_page = a0)) ∧
    ((if chip.scanning_direction.testBit 5 then code = 0x2b else code = 0x2a) →
      (execute_command chip).column_start = a0 ∧
      (execute_command chip).column_end = a2 ∧
      (execute_command chip).active_column = a0) := by
  subst ha0 ha2
  constructor
  · intro hp
    have hpage : (chip.scanning_direction.testBit 5 = true ∧ chip.command_code = 0x2a) ∨
        (chip.scanning_direction.testBit 5 = false ∧ chip.command_code = 0x2b) := by
      by_cases h5 : chip.scanning_direction.testBit 5
      · left
        refine ⟨h5, ?_⟩
        rw [hc]
        simpa [h5] using hp
      · right
        refine ⟨by simpa using h5, ?_⟩
        rw [hc]
        simpa [h5] using hp
    rw [execute_window_page chip hs hpage]
    constructor <;> intro h7 <;> simp [h7]
  · intro hp
    have hcol : (chip.scanning_direction.testBit 5 = true ∧ chip.command_code = 0x2b) ∨
        (chip.scanning_direction.testBit 5 = false ∧ chip.command_code = 0x2a) := by
      by_cases h5 : chip.scanning_direction.testBit 5
      · left
        refine ⟨h5, ?_⟩
        rw [hc]
        simpa [h5] using hp
      · right
        refine ⟨by simpa using h5, ?_⟩
        rw [hc]
        simpa [h5] using hp
    rw [execute_window_col chip hs hcol]
    exact ⟨rfl, rfl, rfl⟩

/-- Witness for claim C7 on a CASET with swap and row-mirror bits set:
start 40 corrects to 8 while end 20 stays 20. -/
theorem claim7_witness :
    (execute_command casetMvChip).page_start = 8 ∧
    (execute_command casetMvChip).page_end = 20 := by
  have h := claim7_offset_correction casetMvChip 0x2a 40 20 (Or.inl rfl) rfl rfl
    (by decide) (by decide)
  have h2 := (h.1 (by decide)).1 (by decide)
  exact ⟨h2.1.trans (by decide), h2.2.1.trans (by decide)⟩

/-- Counterexample to claim C8 as stated: a CASET opcode with only 2 of its
4 argument bytes leaves the device with `ram_write` false even though it
was true before, because `process_command` clears the flag on every batch,
so not every device register is byte-for-byte unchanged. -/
theorem claim8_counterexample :
    armedChip.ram_write = true ∧
    (process_command_args (process_command armedChip [0x2a]) [1, 2]).ram_write = false := by
  decide

/-- Claim C8 (amended): an opcode byte followed by fewer argument bytes than
its arity never executes, leaving the addressing window, cursors, scanning
direction, framebuffer, extent and mode unchanged; only `ram_write` is
affected, cleared by the arrival of the opcode byte itself. -/
theorem claim8_short_args (chip : ChipState) (b : Nat) (args : List Nat)
    (hlen : args.length < command_args_size (b % 256)) :
    (process_command_args (process_command chip [b]) args).active_column
        = chip.active_column ∧
    (process_command_args (process_command chip [b]) args).active_page
        = chip.active_page ∧
    (process_command_args (process_command chip [b]) args).column_start
        = chip.column_start ∧
    (process_command_args (process_command chip [b]) args).column_end
        = chip.column_end ∧
    (process_command_args (process_command chip [b]) args).page_start
        = chip.page_start ∧
    (process_command_args (process_command chip [b]) args).page_end
        = chip.page_end ∧
    (process_command_args (process_command chip [b]) args).scanning_direction
        = chip.scanning_direction ∧
    (process_command_args (process_command chip [b]) args).framebuffer
        = chip.framebuffer ∧
    (process_command_args (process_command chip [b]) args).width = chip.width ∧
    (process_command_args (process_command chip [b]) args).height = chip.height ∧
    (process_command_args (process_command chip [b]) args).mode = chip.mode ∧
    (process_command_args (process_command chip [b]) args).ram_write = false := by
  have hz : command_args_size (b % 256) ≠ 0 := by omega
  have h1 : process_command chip [b]
      = { chip with
          ram_write := false
          command_code := b % 256
          command_size := command_args_size (b % 256)
          command_index := 0 } := by
    unfold process_command
    rw [List.foldl_cons, List.foldl_nil]
    unfold process_command_byte
    dsimp only
    rw [if_neg hz]
  rw [h1]
  obtain ⟨F, hF⟩ := process_command_args_no_exec args
    { chip with
      ram_write := false
      command_code := b % 256
      command_size := command_args_size (b % 256)
      command_index := 0 }
    (show 0 + args.length < command_args_size (b % 256) by omega)
  rw [hF]
  exact ⟨rfl, rfl, rfl, rfl, rfl, rfl, rfl, rfl, rfl, rfl, rfl, rfl⟩

/-- Witness for claim C8 on a gamma-curve opcode with 3 of 16 arguments. -/
theorem claim8_witness :
    (process_command_args (process_command tchip [0xe0]) [1, 2, 3]).scanning_direction
        = tchip.scanning_direction ∧
    (process_command_args (process_command tchip [0xe0]) [1, 2, 3]).ram_write = false := by
  have h := claim8_short_args tchip 0xe0 [1, 2, 3] (by decide)
  obtain ⟨-, -, -, -, -, -, h7, -, -, -, -, h12⟩ := h
  exact ⟨h7, h12⟩

/-- Counterexample to claim C9 as stated: device initialisation sets the
mode to command, but a reset-line falling edge leaves a data-mode device in
data mode: `chip_reset` does not touch `mode`, which only tracks the DC
line. -/
theorem claim9_counterexample :
    (chip_init_state 4 4 (fun _ => 0)).mode = Mode.command ∧
    (chip_rst_fall junkChip).mode = Mode.data := by
  decide

/-- Claim C9 (amended): a reset-line falling edge restores the reset
defaults (full-extent window, zero cursors, scanning direction 0, disarmed
memory write) and overwrites every framebuffer cell with opaque black
0xFF000000, one full-cell write per pixel, leaving cells past the extent
alone; `mode` (and the in-flight command state) is left unchanged rather
than restored to its initialisation value. -/
theorem claim9_reset_line (chip : ChipState) (hW : 0 < chip.width) (hH : 0 < chip.height) :
    (chip_rst_fall chip).ram_write = false ∧
    (chip_rst_fall chip).active_column = 0 ∧
    (chip_rst_fall chip).active_page = 0 ∧
    (chip_rst_fall chip).column_start = 0 ∧
    (chip_rst_fall chip).column_end = chip.width - 1 ∧
    (chip_rst_fall chip).page_start = 0 ∧
    (chip_rst_fall chip).page_end = chip.height - 1 ∧
    (chip_rst_fall chip).scanning_direction = 0 ∧
    (chip_rst_fall chip).mode = chip.mode ∧
    (∀ i, i < chip.width * chip.height →
      (chip_rst_fall chip).framebuffer i = 0xff000000) ∧
    (∀ i, chip.width * chip.height ≤ i →
      (chip_rst_fall chip).framebuffer i = chip.framebuffer i) := by
  unfold chip_rst_fall chip_reset
  dsimp only
  refine ⟨rfl, rfl, rfl, rfl, if_pos ⟨hW, hH⟩, rfl, if_pos ⟨hW, hH⟩, rfl, rfl, ?_, ?_⟩
  · intro i hi
    rw [clear_fb_spec, if_pos hi]
  · intro i hi
    rw [clear_fb_spec, if_neg (by omega)]

/-- Witness for claim C9 on a scrambled data-mode device. -/
theorem claim9_witness :
    (chip_rst_fall junkChip).ram_write = false ∧
    (chip_rst_fall junkChip).column_end = junkChip.width - 1 ∧
    (chip_rst_fall junkChip).scanning_direction = 0 ∧
    (chip_rst_fall junkChip).mode = junkChip.mode ∧
    (chip_rst_fall junkChip).framebuffer 15 = 0xff000000 ∧
    (chip_rst_fall junkChip).framebuffer 16 = junkChip.framebuffer 16 := by
  have h := claim9_reset_line junkChip (by decide) (by decide)
  obtain ⟨h1, -, -, -, h5, -, -, h8, h9, h10, h11⟩ := h
  exact ⟨h1, h5, h8, h9, h10 15 (by decide), h11 16 (by decide)⟩

/-- Claim C10: every framebuffer write of the pixel writer hits an in-bounds
cell index (cells past width*height are never touched by any stream), and a
sample whose transformed coordinate is out of bounds skips its single write
while the cursor advances exactly as for an in-bounds sample. -/
theorem claim10_oob_skip (chip : ChipState) (bs : List Nat) (v : Nat) :
    (∀ i, chip.width * chip.height ≤ i →
        (process_data chip bs).framebuffer i = chip.framebuffer i) ∧
    ((transformX chip < 0 ∨ (chip.width : Int) ≤ transformX chip ∨
      transformY chip < 0 ∨ (chip.height : Int) ≤ transformY chip) →
        sample_step chip v = advance chip) := by
  constructor
  · intro i hi; exact process_data_frame bs chip i hi
  · intro h
    rw [sample_step_eq, if_pos h, ← advance_fb]

/-- Witness for claim C10: an in-extent frame cell is untouched, and an
out-of-bounds sample reduces to pure cursor advancement. -/
theorem claim10_witness :
    (process_data tchip [1, 2, 3, 4]).framebuffer 16 = tchip.framebuffer 16 ∧
    sample_step oobChip 5 = advance oobChip :=
  ⟨(claim10_oob_skip tchip [1, 2, 3, 4] 5).1 16 (by decide),
   (claim10_oob_skip oobChip [] 5).2 (by decide)⟩

end ST7789
